import Mathlib

/-!
Verification of `compiler/compile.py` (multi-provider agent compiler).

The Python source is shallowly embedded: JSON-like values become an
inductive type, descriptor dictionaries become a structure of optional
fields, the file system becomes association lists, Python exceptions and
`sys.exit` become `Except`, and the string-manipulating helpers
(`str.strip`, `str.splitlines`, `str.capitalize`, `Path.suffix`,
substring containment) are modelled character-for-character on `List Char`
or `String`.
-/

/-- The whitespace characters stripped by Python `str.strip()` (the ASCII
ones; exotic unicode spaces are outside the model). -/
def isWsChar (c : Char) : Bool :=
  c = ' ' || c = '\t' || c = '\n' || c = '\r' || c = '\x0b' || c = '\x0c'

/-- Remove leading whitespace, as Python `str.lstrip()`. -/
def stripLeft (l : List Char) : List Char := l.dropWhile isWsChar

/-- Remove trailing whitespace, as Python `str.rstrip()`. -/
def stripRight (l : List Char) : List Char := (l.reverse.dropWhile isWsChar).reverse

/-- Python `str.strip()` on a character list. -/
def pyStrip (l : List Char) : List Char := stripLeft (stripRight l)

/-- Python `str.strip()` on a `String`. -/
def pyStripS (s : String) : String := String.mk (pyStrip s.toList)

/-- Whether `p` is a prefix of `l` (Python `str.startswith`). -/
def beginsWith : List Char → List Char → Bool
  | [], _ => true
  | _ :: _, [] => false
  | a :: ps, b :: ls => a = b && beginsWith ps ls

/-- Whether `needle` occurs as a contiguous substring of the second argument:
Python's `needle in haystack` on strings. -/
def occursIn (needle : List Char) : List Char → Bool
  | [] => decide (needle = [])
  | c :: rest => beginsWith needle (c :: rest) || occursIn needle rest

/-- Python `str.splitlines` (covering the line terminators `\r\n`, `\r`,
`\n`; the rarer unicode terminators are outside the model), as an
accumulator recursion over the characters. -/
def splitlinesAux : List Char → List Char → List (List Char)
  | [], acc => if acc.isEmpty then [] else [acc.reverse]
  | '\r' :: '\n' :: rest, acc => acc.reverse :: splitlinesAux rest []
  | '\r' :: rest, acc => acc.reverse :: splitlinesAux rest []
  | '\n' :: rest, acc => acc.reverse :: splitlinesAux rest []
  | c :: rest, acc => splitlinesAux rest (c :: acc)

/-- Python `str.splitlines` on a `String`. -/
def pySplitlines (s : String) : List String :=
  (splitlinesAux s.toList []).map String.mk

/-- Python `str.lower` (ASCII; structural recursion so that concrete
instances evaluate in the kernel). -/
def pyLower (s : String) : String := String.mk (s.toList.map Char.toLower)

/-- Whether the character occurs in the string (Python `c in s`). -/
def containsChar (s : String) (c : Char) : Bool := s.toList.contains c

/-- Python `str.capitalize`: first character uppercased, the rest
lowercased. -/
def pyCapitalize (s : String) : String :=
  match s.toList with
  | [] => ""
  | c :: rest => String.mk (c.toUpper :: rest.map Char.toLower)

/-- Python `pathlib.Path(name).suffix`: the text from the last dot of the
final component, empty when the dot is the first or missing, or trailing. -/
def pySuffix (s : String) : String :=
  let cs := s.toList
  match cs.reverse.findIdx? (fun c => c = '.') with
  | none => ""
  | some k =>
    let i := cs.length - 1 - k
    if 0 < i && i < cs.length - 1 then String.mk (cs.drop i) else ""

/-- Look a key up in an association list (Python `dict.get(k)`). -/
def lookupAssoc {α : Type} (l : List (String × α)) (k : String) : Option α :=
  match l with
  | [] => none
  | (k1, v) :: t => if k1 = k then some v else lookupAssoc t k

/-- Set a key in an association list (Python `d[k] = v`): replace the first
binding, or append a new one. -/
def setAssoc {α : Type} (l : List (String × α)) (k : String) (v : α) :
    List (String × α) :=
  match l with
  | [] => [(k, v)]
  | (k1, v1) :: t => if k1 = k then (k, v) :: t else (k1, v1) :: setAssoc t k v

/-- `dict.get(k, default)`. -/
def getAssocD {α : Type} (l : List (String × α)) (k : String) (dflt : α) : α :=
  match lookupAssoc l k with
  | some v => v
  | none => dflt

/-! ## Data model

JSON-like values, entity descriptors (`agent_data` / `skill_data` /
`command_data` dictionaries), Python exceptions, templates, and the
provider output tree. -/

/-- A JSON value as Python's `json.loads` produces it (floats are outside
the model; integers stand for the numbers the claims exercise). -/
inductive JVal where
  | null
  | bool (b : Bool)
  | int (n : Int)
  | str (s : String)
  | list (xs : List JVal)
  | dict (kvs : List (String × JVal))

/-- Python truthiness of a `JVal` (`bool(value)`). -/
def pyTruthy : JVal → Bool
  | .null => false
  | .bool b => b
  | .int n => n != 0
  | .str s => s ≠ ""
  | .list xs => !xs.isEmpty
  | .dict kvs => !kvs.isEmpty

/-- Whether the value is a Python list (`isinstance(value, list)`). -/
def isListJ : JVal → Bool
  | .list _ => true
  | _ => false

/-- A scalar field value as `_format_scalar` distinguishes them: boolean,
number, or string (already the result of `str(value)` for strings). -/
inductive ScalarV where
  | bool (b : Bool)
  | int (n : Int)
  | str (s : String)
deriving DecidableEq, Repr

/-- A handoff record for `format_handoffs_copilot`: `label` and `agent` are
read with `.get(k, '')`, `prompt` and `send` only when the key is present
(their rendered `str()` form). -/
structure Handoff where
  label : Option String
  agent : Option String
  prompt : Option String
  send : Option String
deriving DecidableEq, Repr

/-- A value inside an MCP server configuration for
`format_mcp_servers_copilot`: a scalar (its `str()` form), a one-level
dictionary, or a list. -/
inductive McpVal where
  | scalar (s : String)
  | dict (kvs : List (String × String))
  | list (items : List String)
deriving DecidableEq, Repr

/-- An entity descriptor: the dictionary loaded from an agent / command /
skill JSON file, restricted to the fields the compiler reads. `none`
conflates an absent key with JSON `null` (exactly what `dict.get` returns
in both cases). `extraKeys` lists further keys present in the raw
dictionary, for the schema presence check. The `providers` map is modelled
with boolean values, as the schema prescribes. -/
structure EntityData where
  name : Option String := none
  description : Option String := none
  prompt : Option String := none
  model : Option ScalarV := none
  color : Option ScalarV := none
  temperature : Option ScalarV := none
  maxIterations : Option ScalarV := none
  target : Option ScalarV := none
  tools : JVal := .null
  permissions : Option (List (String × String)) := none
  handoffs : Option (List Handoff) := none
  mcpServers : Option (List (String × List (String × McpVal))) := none
  providers : List (String × Bool) := []
  extraKeys : List String := []

/-- A Python-level failure: an uncaught `json.JSONDecodeError`, a
`KeyError`, an `AttributeError`, or `sys.exit(code)`. -/
inductive PyErr where
  | jsonDecodeError
  | keyError
  | attributeError
  | sysExit (code : Nat)
deriving DecidableEq, Repr

deriving instance DecidableEq for Except

/-- A parsed `string.Template`: literal pieces and `$name` placeholders. -/
inductive TPart where
  | lit (s : String)
  | var (v : String)
deriving DecidableEq, Repr

/-- A template file's parsed content. -/
abbrev TemplateT := List TPart

/-- The template directory: maps a template type (`agents` / `skills`) and a
file name to the parsed template, `none` when the file does not exist. -/
abbrev TemplateEnv := String → String → Option TemplateT

/-- One provider's agents (or commands) output directory: the written
`.md` files keyed by entity name, and the `manifest.txt` content (`none`
while the file does not exist). -/
structure ProvDir where
  files : List (String × String) := []
  manifest : Option (List Char) := none
deriving DecidableEq, Repr

/-- The provider output tree for one output category, keyed by provider. -/
abbrev FS := List (String × ProvDir)

/-- The keys of `PROVIDER_PATHS` (indexing it with any other provider name
raises `KeyError`). -/
def providerKeys : List String := [r"claude", r"opencode", r"copilot"]

/-- The `--provider` choices accepted by `main`'s argument parser. -/
def providerChoices : List String := [r"claude", r"opencode", r"copilot", r"gemini"]

/-! ## Formatters (compile.py lines 41-166) -/

/-- `load_template` (lines 41-47): return the parsed template, or
`sys.exit(1)` when the file does not exist. -/
def load_template (env : TemplateEnv) (template_name : String)
    (template_type : String) : Except PyErr TemplateT :=
  match env template_type template_name with
  | some t => .ok t
  | none => .error (.sysExit 1)

/-- `validate_json` (lines 58-70): `schema` is the parsed schema reduced to
its `required` list (`none` when the schema file is missing; Python's
falsy check also lets an empty schema dictionary pass everything, which an
empty `required` list reproduces). A field is present when the descriptor
carries it. -/
def hasField (d : EntityData) (f : String) : Bool :=
  if f = r"name" then d.name.isSome
  else if f = r"description" then d.description.isSome
  else if f = r"prompt" then d.prompt.isSome
  else if f = r"model" then d.model.isSome
  else if f = r"color" then d.color.isSome
  else if f = r"temperature" then d.temperature.isSome
  else if f = r"maxIterations" then d.maxIterations.isSome
  else if f = r"target" then d.target.isSome
  else if f = r"tools" then !(d.tools matches .null)
  else if f = r"permissions" then d.permissions.isSome
  else if f = r"handoffs" then d.handoffs.isSome
  else if f = r"mcpServers" then d.mcpServers.isSome
  else decide (f ∈ d.extraKeys)

/-- `validate_json` (lines 58-70): true when every schema-required field is
present in the data. -/
def validate_json (d : EntityData) (schema : Option (List String)) : Bool :=
  match schema with
  | none => true
  | some required => required.all (hasField d)

/-- `format_tools_claude` (lines 73-81): a falsy value gives the empty
string; a list is capitalized and bracketed; any other value gives the
empty string. A list element that is not a string raises `AttributeError`
(`t.capitalize()` on a non-string). -/
def format_tools_claude (tools : JVal) : Except PyErr String :=
  if !pyTruthy tools then .ok ""
  else match tools with
    | .list ts => do
      let formatted ← ts.mapM (fun t => match t with
        | .str s => Except.ok (pyCapitalize s)
        | _ => Except.error PyErr.attributeError)
      .ok ("tools: [" ++ String.intercalate ", " formatted ++ "]\n")
    | _ => .ok ""

/-- `format_tools_opencode` (lines 84-93): a yaml map with lowercase keys
set to true; same falsy / non-list / non-string-element behaviour. -/
def format_tools_opencode (tools : JVal) : Except PyErr String :=
  if !pyTruthy tools then .ok ""
  else match tools with
    | .list ts => do
      let entries ← ts.mapM (fun t => match t with
        | .str s => Except.ok ("  " ++ pyLower s ++ ": true")
        | _ => Except.error PyErr.attributeError)
      .ok (String.intercalate "\n" ("tools:" :: entries) ++ "\n")
    | _ => .ok ""

/-- `format_tools_copilot` (lines 96-103): a bracketed single-quoted
lowercase list; same falsy / non-list / non-string-element behaviour. -/
def format_tools_copilot (tools : JVal) : Except PyErr String :=
  if !pyTruthy tools then .ok ""
  else match tools with
    | .list ts => do
      let formatted ← ts.mapM (fun t => match t with
        | .str s => Except.ok ("'" ++ pyLower s ++ "'")
        | _ => Except.error PyErr.attributeError)
      .ok ("tools: [" ++ String.intercalate ", " formatted ++ "]\n")
    | _ => .ok ""

/-- `format_permissions_opencode` (lines 106-113). -/
def format_permissions_opencode (permissions : Option (List (String × String))) :
    String :=
  match permissions with
  | none => ""
  | some [] => ""
  | some ps =>
    String.intercalate "\n"
      ("permissions:" :: ps.map (fun kv => "  " ++ kv.1 ++ ": " ++ kv.2)) ++ "\n"

/-- The lines `format_handoffs_copilot` emits for one handoff record. -/
def handoffLines (h : Handoff) : List String :=
  ["  - label: " ++ h.label.getD "", "    agent: " ++ h.agent.getD ""]
    ++ (match h.prompt with
        | some p => ["    prompt: " ++ p]
        | none => [])
    ++ (match h.send with
        | some s => ["    send: " ++ s]
        | none => [])

/-- `format_handoffs_copilot` (lines 116-128). -/
def format_handoffs_copilot (handoffs : Option (List Handoff)) : String :=
  match handoffs with
  | none => ""
  | some [] => ""
  | some hs =>
    String.intercalate "\n" ("handoffs:" :: (hs.map handoffLines).flatten) ++ "\n"

/-- The lines `format_mcp_servers_copilot` emits for one configuration
entry. -/
def mcpEntryLines (kv : String × McpVal) : List String :=
  match kv.2 with
  | .dict sub =>
    ("    " ++ kv.1 ++ ":") :: sub.map (fun p => "      " ++ p.1 ++ ": " ++ p.2)
  | .list items =>
    ("    " ++ kv.1 ++ ":") :: items.map (fun it => "      - " ++ it)
  | .scalar v => ["    " ++ kv.1 ++ ": " ++ v]

/-- `format_mcp_servers_copilot` (lines 131-149). -/
def format_mcp_servers_copilot
    (mcp_servers : Option (List (String × List (String × McpVal)))) : String :=
  match mcp_servers with
  | none => ""
  | some [] => ""
  | some servers =>
    String.intercalate "\n"
      ("mcpServers:" ::
        (servers.map (fun nc =>
          ("  " ++ nc.1 ++ ":") :: (nc.2.map mcpEntryLines).flatten)).flatten) ++ "\n"

/-- `_format_scalar` (lines 152-166): empty for an absent / null value;
booleans lowercase; numbers as printed; a string with a line break as a
block scalar; a string with a colon or surrounding whitespace quoted; any
other string unquoted. -/
def _format_scalar (key : String) (value : Option ScalarV) : String :=
  match value with
  | none => ""
  | some (.bool b) => key ++ ": " ++ (if b then "true" else "false") ++ "\n"
  | some (.int n) => key ++ ": " ++ toString n ++ "\n"
  | some (.str v) =>
    if containsChar v '\n' then
      key ++ ": |\n  " ++ String.intercalate "\n  " (pySplitlines v) ++ "\n"
    else if containsChar v ':' || pyStripS v ≠ v then
      key ++ ": \"" ++ v ++ "\"\n"
    else
      key ++ ": " ++ v ++ "\n"

/-! ## Entity compilation (compile.py lines 169-245) -/

/-- `string.Template.substitute`: concatenate the literal pieces and the
context values, raising `KeyError` for a placeholder with no context
entry. -/
def substituteT (t : TemplateT) (ctx : List (String × String)) :
    Except PyErr String :=
  match t with
  | [] => .ok ""
  | .lit s :: rest => do
    let tail ← substituteT rest ctx
    .ok (s ++ tail)
  | .var v :: rest =>
    match lookupAssoc ctx v with
    | none => .error .keyError
    | some s => do
      let tail ← substituteT rest ctx
      .ok (s ++ tail)

/-- The tools section of the context (lines 204-212): the provider picks
its formatter; an unknown provider gets the empty string. -/
def toolsSectionFor (provider : String) (tools : JVal) : Except PyErr String :=
  if provider = r"claude" then format_tools_claude tools
  else if provider = r"opencode" then format_tools_opencode tools
  else if provider = r"copilot" then format_tools_copilot tools
  else .ok ""

/-- Lines 181-233 of `compile_entity_for_provider`: the enabled-provider
path. Loads the template (fatal when missing), builds the context from the
descriptor, and substitutes. -/
def compile_entity_render (env : TemplateEnv) (entity_data : EntityData)
    (provider : String) (template_type : String) : Except PyErr String := do
  let template ← load_template env (provider ++ ".md.j2") template_type
  let tools_section ← toolsSectionFor provider entity_data.tools
  let context : List (String × String) :=
    [(r"name", entity_data.name.getD ""),
     (r"description", entity_data.description.getD ""),
     (r"prompt", entity_data.prompt.getD ""),
     (r"model_section", _format_scalar r"model" entity_data.model),
     (r"color_section", _format_scalar r"color" entity_data.color),
     (r"temperature_section", _format_scalar r"temperature" entity_data.temperature),
     (r"max_iterations_section",
       _format_scalar r"maxIterations" entity_data.maxIterations),
     (r"target_section", _format_scalar r"target" entity_data.target),
     (r"tools_section", tools_section),
     (r"permissions_section",
       if provider = r"opencode"
       then format_permissions_opencode entity_data.permissions else ""),
     (r"handoffs_section",
       if provider = r"copilot"
       then format_handoffs_copilot entity_data.handoffs else ""),
     (r"mcp_servers_section",
       if provider = r"copilot"
       then format_mcp_servers_copilot entity_data.mcpServers else "")]
  substituteT template context

/-- `compile_entity_for_provider` (lines 169-233): `.ok none` models the
`return None` taken when the descriptor's `providers` map has an explicit
falsy entry for the provider (`providers.get(provider, True)`); otherwise
the enabled-provider path runs. -/
def compile_entity_for_provider (env : TemplateEnv) (entity_data : EntityData)
    (provider : String) (template_type : String) :
    Except PyErr (Option String) :=
  if (getAssocD entity_data.providers provider true) = false then .ok none
  else (compile_entity_render env entity_data provider template_type).map some

/-! ## Output writing (compile.py lines 248-313) -/

/-- The manifest update shared by `write_agent_output` (lines 259-266),
`write_command_output` (lines 279-286) and `write_skill_output` (lines
305-313): create the file with `name\n` when missing; otherwise strip the
whole content, and append the name only when it does not occur as a
substring of the stripped content. -/
def stepManifest : Option (List Char) → List Char → List Char
  | none, name => name ++ ['\n']
  | some content, name =>
    let current := pyStrip content
    if occursIn name current then content
    else current ++ '\n' :: (name ++ ['\n'])

/-- The shared body of the three `write_*_output` functions: overwrite the
rendered file for the entity and update the manifest. -/
def writeNamedOutput (dir : ProvDir) (name content : String) : ProvDir :=
  { files := setAssoc dir.files name content,
    manifest := some (stepManifest dir.manifest name.toList) }

/-- `write_agent_output` (lines 248-266): `PROVIDER_PATHS[provider]` raises
`KeyError` for an unknown provider; otherwise the agent file is written
(overwriting any previous content) and the manifest updated. -/
def write_agent_output (agent_name content provider : String) (fs : FS) :
    Except PyErr FS :=
  if decide (provider ∈ providerKeys) then
    .ok (setAssoc fs provider
          (writeNamedOutput (getAssocD fs provider {}) agent_name content))
  else .error .keyError

/-- `write_command_output` (lines 269-286): identical to
`write_agent_output` but under the provider's `commands` directory (a
separate `FS` value in the model). -/
def write_command_output (command_name content provider : String) (fs : FS) :
    Except PyErr FS :=
  if decide (provider ∈ providerKeys) then
    .ok (setAssoc fs provider
          (writeNamedOutput (getAssocD fs provider {}) command_name content))
  else .error .keyError

/-- `write_skill_output` (lines 289-313): writes
`skills/<name>/SKILL.md` (keyed by skill name in the model) and updates
`skills/manifest.txt` with the same append-if-absent policy. -/
def write_skill_output (skill_name content provider : String) (fs : FS) :
    Except PyErr FS :=
  if decide (provider ∈ providerKeys) then
    .ok (setAssoc fs provider
          (writeNamedOutput (getAssocD fs provider {}) skill_name content))
  else .error .keyError

/-! ## Skill asset copying (compile.py lines 316-352) -/

/-- One entry of the skill's source directory: its file name, whether it is
a directory, and an opaque payload standing for the copied bytes (for a
directory, the whole tree that `shutil.copytree` would reproduce). -/
structure SkillItem where
  name : String
  isDir : Bool
  payload : String
deriving DecidableEq, Repr

/-- The destination skill directory: entries keyed by name, each a
(directory?, payload) pair. -/
abbrev SkillDest := List (String × (Bool × String))

/-- One iteration of `add_skill_files`'s copy loop (lines 335-352): a JSON
file is skipped; a failing copy (the oracle `failCopy`, standing for the
raised and caught `OSError`) leaves the destination unchanged and only
prints a warning; otherwise `shutil.copy2`, or `rmtree` followed by
`copytree`, replaces the destination entry wholesale. -/
def addSkillFileStep (failCopy : String → Bool) (d : SkillDest)
    (it : SkillItem) : SkillDest :=
  if !it.isDir && pyLower (pySuffix it.name) = ".json" then d
  else if failCopy it.name then d
  else setAssoc d it.name (it.isDir, it.payload)

/-- The copy loop of `add_skill_files` (lines 335-352). -/
def add_skill_files_loop (items : List SkillItem) (failCopy : String → Bool)
    (dest : SkillDest) : SkillDest :=
  items.foldl (addSkillFileStep failCopy) dest

/-- `add_skill_files` (lines 316-352), with its two guards: an unknown
provider or a missing source directory only print a warning and leave the
destination untouched. -/
def add_skill_files (provider : String) (srcExists : Bool)
    (items : List SkillItem) (failCopy : String → Bool) (dest : SkillDest) :
    SkillDest :=
  if !(decide (provider ∈ providerKeys)) then dest
  else if !srcExists then dest
  else add_skill_files_loop items failCopy dest

/-! ## Driver (compile.py lines 355-526 and 573-631) -/

/-- The Python idiom `providers or default` used for the provider set: an
absent (`None`) or empty list falls back to the default. -/
def pyOrList (providers : Option (List String)) (dflt : List String) :
    List String :=
  match providers with
  | none => dflt
  | some l => if l.isEmpty then dflt else l

/-- The provider set `compile_agent` iterates over (line 373). -/
def providersToCompileAgent (providers : Option (List String)) : List String :=
  pyOrList providers [r"claude", r"opencode", r"copilot"]

/-- The provider set `compile_command` iterates over (line 404). -/
def providersToCompileCommand (providers : Option (List String)) : List String :=
  pyOrList providers [r"claude", r"opencode", r"copilot"]

/-- The provider set `compile_skill` iterates over (line 435). -/
def providersToCompileSkill (providers : Option (List String)) : List String :=
  pyOrList providers [r"claude", r"opencode"]

/-- A descriptor file's parse outcome: `json.loads` either yields the
descriptor dictionary or raises `JSONDecodeError` (with a message). -/
abbrev ParsedFile := Except String EntityData

/-- The per-provider body of `compile_agent`'s loop (lines 376-380): render
(a falsy result — `None` for a disabled provider, or an empty rendering —
produces no output), otherwise write and count. -/
def compileAgentStep (env : TemplateEnv) (d : EntityData) (nm : String)
    (acc : Nat × FS) (provider : String) : Except PyErr (Nat × FS) := do
  let content ← compile_entity_for_provider env d provider r"agents"
  match content with
  | some c =>
    if c = "" then pure acc
    else do
      let fs2 ← write_agent_output nm c provider acc.2
      pure (acc.1 + 1, fs2)
  | none => pure acc

/-- `compile_agent` (lines 355-383): parse (`json.loads` failures are NOT
caught here), validate against the schema's required list, require a
truthy `name`, then compile and write for each provider of the requested
or default set. Returns the Python function's boolean and the output
tree. -/
def compile_agent (env : TemplateEnv) (schema : Option (List String))
    (file : ParsedFile) (providers : Option (List String)) (fs : FS) :
    Except PyErr (Bool × FS) := do
  let d ← match file with
    | .error _ => Except.error PyErr.jsonDecodeError
    | .ok d => pure d
  if validate_json d schema = false then pure (false, fs)
  else match d.name with
    | none => pure (false, fs)
    | some nm =>
      if nm = "" then pure (false, fs)
      else do
        let r ← (providersToCompileAgent providers).foldlM
          (compileAgentStep env d nm) ((0 : Nat), fs)
        pure (true, r.2)

/-- The per-provider body of `compile_command`'s loop (lines 407-411);
commands render with the `agents` template set (line 245). -/
def compileCommandStep (env : TemplateEnv) (d : EntityData) (nm : String)
    (acc : Nat × FS) (provider : String) : Except PyErr (Nat × FS) := do
  let content ← compile_entity_for_provider env d provider r"agents"
  match content with
  | some c =>
    if c = "" then pure acc
    else do
      let fs2 ← write_command_output nm c provider acc.2
      pure (acc.1 + 1, fs2)
  | none => pure acc

/-- `compile_command` (lines 386-414). -/
def compile_command (env : TemplateEnv) (schema : Option (List String))
    (file : ParsedFile) (providers : Option (List String)) (fs : FS) :
    Except PyErr (Bool × FS) := do
  let d ← match file with
    | .error _ => Except.error PyErr.jsonDecodeError
    | .ok d => pure d
  if validate_json d schema = false then pure (false, fs)
  else match d.name with
    | none => pure (false, fs)
    | some nm =>
      if nm = "" then pure (false, fs)
      else do
        let r ← (providersToCompileCommand providers).foldlM
          (compileCommandStep env d nm) ((0 : Nat), fs)
        pure (true, r.2)

/-- The skill output state: per provider the `SKILL.md` tree with its
manifest, plus per (provider, skill) the copied asset directory. -/
structure SkillFS where
  rendered : FS := []
  assets : List (String × SkillDest) := []
deriving DecidableEq, Repr

/-- The per-provider body of `compile_skill`'s loop (lines 438-443): write
`SKILL.md`, then copy the remaining skill files. -/
def compileSkillStep (env : TemplateEnv) (d : EntityData) (nm : String)
    (items : List SkillItem) (srcExists : Bool) (failCopy : String → Bool)
    (acc : Nat × SkillFS) (provider : String) : Except PyErr (Nat × SkillFS) := do
  let content ← compile_entity_for_provider env d provider r"skills"
  match content with
  | some c =>
    if c = "" then pure acc
    else do
      let fs2 ← write_skill_output nm c provider acc.2.rendered
      let dest2 := add_skill_files provider srcExists items failCopy
        (getAssocD acc.2.assets provider [])
      pure (acc.1 + 1, { rendered := fs2, assets := setAssoc acc.2.assets provider dest2 })
  | none => pure acc

/-- `compile_skill` (lines 417-446). -/
def compile_skill (env : TemplateEnv) (schema : Option (List String))
    (file : ParsedFile) (items : List SkillItem) (srcExists : Bool)
    (failCopy : String → Bool) (providers : Option (List String))
    (fs : SkillFS) : Except PyErr (Bool × SkillFS) := do
  let d ← match file with
    | .error _ => Except.error PyErr.jsonDecodeError
    | .ok d => pure d
  if validate_json d schema = false then pure (false, fs)
  else match d.name with
    | none => pure (false, fs)
    | some nm =>
      if nm = "" then pure (false, fs)
      else do
        let r ← (providersToCompileSkill providers).foldlM
          (compileSkillStep env d nm items srcExists failCopy) ((0 : Nat), fs)
        pure (true, r.2)

/-- `compile_all_agents` (lines 449-463): fold `compile_agent` over the
discovered descriptor files, counting successes. An exception raised by
`compile_agent` (in particular `json.JSONDecodeError`, which nothing on
this path catches) propagates and aborts the whole loop. -/
def compile_all_agents (env : TemplateEnv) (schema : Option (List String))
    (files : List ParsedFile) (providers : Option (List String)) (fs : FS) :
    Except PyErr (Nat × FS) :=
  files.foldlM
    (fun acc f => do
      let r ← compile_agent env schema f providers acc.2
      pure (if r.1 then acc.1 + 1 else acc.1, r.2))
    ((0 : Nat), fs)

/-! ## Claim C3 -/

/-- Claim C3: on the tools list `["read", "write"]` the three provider
formatters deterministically produce their fixed structures: claude a
bracketed capitalized list, opencode a yaml map of lowercase keys set to
true under a `tools:` header, copilot a bracketed single-quoted lowercase
list. -/
theorem tool_formatters_on_read_write :
    format_tools_claude (.list [.str r"read", .str r"write"])
      = .ok "tools: [Read, Write]\n"
    ∧ format_tools_opencode (.list [.str r"read", .str r"write"])
      = .ok "tools:\n  read: true\n  write: true\n"
    ∧ format_tools_copilot (.list [.str r"read", .str r"write"])
      = .ok "tools: ['read', 'write']\n" := by
  refine ⟨by decide, by decide, by decide⟩

/-! ## Claim C10 -/

/-- Claim C10: with no providers requested, agents and commands compile for
exactly claude, opencode and copilot, skills for exactly claude and
opencode; gemini is in no default set although it is an accepted
`--provider` choice. -/
theorem default_provider_sets :
    providersToCompileAgent none = [r"claude", r"opencode", r"copilot"]
    ∧ providersToCompileCommand none = [r"claude", r"opencode", r"copilot"]
    ∧ providersToCompileSkill none = [r"claude", r"opencode"]
    ∧ r"gemini" ∉ providersToCompileAgent none
    ∧ r"gemini" ∉ providersToCompileCommand none
    ∧ r"gemini" ∉ providersToCompileSkill none
    ∧ r"gemini" ∈ providerChoices := by
  refine ⟨rfl, rfl, rfl, ?_, ?_, ?_, ?_⟩ <;> decide

/-! ## Claim C2 -/

/-- Folding append over strings from any accumulator prepends it. -/
theorem foldl_append_str (l : List String) :
    ∀ acc : String, l.foldl (fun r s => r ++ s) acc
      = acc ++ l.foldl (fun r s => r ++ s) "" := by
  induction l with
  | nil => intro acc; simp
  | cons x xs ih =>
    intro acc
    simp only [List.foldl_cons]
    rw [ih (acc ++ x), ih ("" ++ x)]
    simp [String.append_assoc]

/-- `String.join` peels its head. -/
theorem join_cons_str (a : String) (l : List String) :
    String.join (a :: l) = a ++ String.join l := by
  simp only [String.join, List.foldl_cons]
  rw [foldl_append_str]
  simp

/-- The accumulator form of the block-scalar body: indenting with
`String.intercalate` equals emitting each line indented and terminated. -/
theorem intercalate_go_block (t : List String) :
    ∀ acc : String, "  " ++ String.intercalate.go acc "\n  " t ++ "\n"
      = ("  " ++ acc ++ "\n") ++ String.join (t.map (fun l => "  " ++ l ++ "\n")) := by
  induction t with
  | nil => intro acc; simp [String.intercalate.go, String.join]
  | cons x xs ih =>
    intro acc
    simp only [String.intercalate.go, List.map_cons]
    rw [ih (acc ++ "\n  " ++ x), join_cons_str]
    apply String.ext
    simp

/-- The block-scalar body of `_format_scalar`, rewritten line by line. -/
theorem intercalate_block (ls : List String) (h : ls ≠ []) :
    "  " ++ String.intercalate "\n  " ls ++ "\n"
      = String.join (ls.map (fun l => "  " ++ l ++ "\n")) := by
  cases ls with
  | nil => cases h rfl
  | cons a t =>
    simp only [String.intercalate, List.map_cons]
    rw [intercalate_go_block, join_cons_str]

/-- `splitlinesAux` never returns the empty list when the input or the
accumulator is nonempty. -/
theorem splitlinesAux_ne_nil (l acc : List Char) (h : l ≠ [] ∨ acc ≠ []) :
    splitlinesAux l acc ≠ [] := by
  induction l, acc using splitlinesAux.induct with
  | case1 acc hacc =>
    rcases h with h1 | h1
    · exact absurd rfl h1
    · cases acc with
      | nil => exact absurd rfl h1
      | cons a t => simp at hacc
  | case2 acc hacc =>
    cases acc with
    | nil => simp at hacc
    | cons a t => simp [splitlinesAux]
  | case3 rest acc ih => simp [splitlinesAux]
  | case4 rest acc hcond ih => simp [splitlinesAux, hcond]
  | case5 rest acc ih => simp [splitlinesAux]
  | case6 c rest acc hc1 hc2 hc3 ih =>
    have heq : splitlinesAux (c :: rest) acc = splitlinesAux rest (c :: acc) := by
      simp [splitlinesAux, hc1, hc2, hc3]
    rw [heq]
    exact ih (Or.inr (by simp))

/-- Claim C2: `_format_scalar` returns the empty string for an absent/null
value; `key: <bool lowercase>` for booleans; `key: <number>` for numbers;
a block scalar (`key: |` then every line of the string indented two
spaces) for strings with a line break; `key: "<s>"` for strings with a
colon or surrounding whitespace; and a bare `key: <s>` line otherwise
(each string rule applying only where the earlier ones do not). -/
theorem format_scalar_spec (k : String) :
    _format_scalar k none = ""
    ∧ (∀ b : Bool, _format_scalar k (some (.bool b))
        = k ++ ": " ++ (cond b "true" "false") ++ "\n")
    ∧ (∀ n : Int, _format_scalar k (some (.int n)) = k ++ ": " ++ toString n ++ "\n")
    ∧ (∀ v : String, containsChar v '\n' = true →
        _format_scalar k (some (.str v))
          = k ++ ": |\n"
            ++ String.join ((pySplitlines v).map (fun l => "  " ++ l ++ "\n")))
    ∧ (∀ v : String, containsChar v '\n' = false →
        containsChar v ':' = true ∨ pyStripS v ≠ v →
        _format_scalar k (some (.str v)) = k ++ ": \"" ++ v ++ "\"\n")
    ∧ (∀ v : String, containsChar v '\n' = false → containsChar v ':' = false →
        pyStripS v = v →
        _format_scalar k (some (.str v)) = k ++ ": " ++ v ++ "\n") := by
  refine ⟨rfl, fun b => by cases b <;> rfl, fun n => rfl, ?_, ?_, ?_⟩
  · intro v hv
    have hne : v.toList ≠ [] := by
      intro h0
      rw [containsChar, h0] at hv
      simp at hv
    have h1 : pySplitlines v ≠ [] := by
      rw [pySplitlines]
      intro h2
      exact splitlinesAux_ne_nil v.toList [] (Or.inl hne)
        (List.map_eq_nil_iff.mp h2)
    simp only [_format_scalar, hv, if_true]
    rw [← intercalate_block _ h1]
    apply String.ext
    simp
  · intro v hn hq
    rcases hq with hc | hs
    · simp [_format_scalar, hn, hc]
    · simp [_format_scalar, hn, hs]
  · intro v hn hc hs
    simp [_format_scalar, hn, hc, hs]

/-- Witness for C2 at a concrete input: a plain string renders as an
unquoted `key: value` line. -/
theorem format_scalar_spec_witness :
    containsChar "gpt 4o" '\n' = false
    ∧ containsChar "gpt 4o" ':' = false
    ∧ pyStripS "gpt 4o" = "gpt 4o"
    ∧ _format_scalar "model" (some (.str "gpt 4o")) = "model: gpt 4o\n" := by
  refine ⟨by decide, by decide, by decide, ?_⟩
  exact (format_scalar_spec "model").2.2.2.2.2 "gpt 4o" (by decide) (by decide)
    (by decide)

/-! ## Claim C4 -/

/-- Counterexample to C4 as stated: `[1]` is a tools value that is not a
list of tool-name strings, yet all three formatters raise
`AttributeError` (`t.capitalize()` / `t.lower()` on an `int`) instead of
returning the empty string. -/
theorem tool_formatters_raise_on_non_string_element :
    format_tools_claude (.list [.int 1]) = .error .attributeError
    ∧ format_tools_opencode (.list [.int 1]) = .error .attributeError
    ∧ format_tools_copilot (.list [.int 1]) = .error .attributeError := by
  refine ⟨by decide, by decide, by decide⟩

/-- Claim C4 (amended): for every malformed tools value that is not a
Python list — a string, number, mapping, boolean or null — each of the
three tool formatters silently returns the empty string rather than
raising. (A list with a non-string element instead raises
`AttributeError`.) -/
theorem tool_formatters_empty_on_non_list (v : JVal) (h : isListJ v = false) :
    format_tools_claude v = .ok ""
    ∧ format_tools_opencode v = .ok ""
    ∧ format_tools_copilot v = .ok "" := by
  refine ⟨?_, ?_, ?_⟩ <;>
    cases v <;>
      simp_all [isListJ, format_tools_claude, format_tools_opencode,
        format_tools_copilot, pyTruthy]

/-- Witness for the amended C4 at a concrete non-list input. -/
theorem tool_formatters_empty_on_non_list_witness :
    isListJ (JVal.str r"hello") = false
    ∧ format_tools_claude (JVal.str r"hello") = .ok ""
    ∧ format_tools_opencode (JVal.str r"hello") = .ok ""
    ∧ format_tools_copilot (JVal.str r"hello") = .ok "" :=
  ⟨rfl, tool_formatters_empty_on_non_list (JVal.str r"hello") rfl⟩

/-! ## Claim C1 -/

/-- Claim C1: a descriptor whose `providers` map carries an explicit
`false` for the target provider makes `compile_entity_for_provider` return
no rendering (`.ok none`); consequently `compile_agent` writes no output
file and no manifest entry for that provider (the state is unchanged);
and a provider absent from the map is treated as enabled (the rendering
path runs). -/
theorem disabled_provider_spec (env : TemplateEnv) (d : EntityData)
    (p tt : String) (schema : Option (List String)) (nm : String) (fs : FS)
    (hv : validate_json d schema = true) (hname : d.name = some nm)
    (hnm : nm ≠ "") :
    (lookupAssoc d.providers p = some false →
      compile_entity_for_provider env d p tt = .ok none)
    ∧ (lookupAssoc d.providers p = some false →
      compile_agent env schema (.ok d) (some [p]) fs = .ok (true, fs))
    ∧ (lookupAssoc d.providers p = none →
      compile_entity_for_provider env d p tt
        = (compile_entity_render env d p tt).map some) := by
  refine ⟨?_, ?_, ?_⟩
  · intro h
    simp [compile_entity_for_provider, getAssocD, h]
  · intro h
    have ha : compile_entity_for_provider env d p r"agents" = .ok none := by
      simp [compile_entity_for_provider, getAssocD, h]
    simp [compile_agent, hv, hname, hnm, providersToCompileAgent, pyOrList,
      List.foldlM, compileAgentStep, ha]
    rfl
  · intro h
    simp [compile_entity_for_provider, getAssocD, h]

/-- Witness for C1 at a concrete descriptor: claude is explicitly disabled
(no rendering, no state change), opencode is absent from the map and so
takes the enabled path. -/
theorem disabled_provider_spec_witness :
    compile_entity_for_provider (fun _ _ => none)
      { name := some r"a", providers := [(r"claude", false)] } r"claude" r"agents"
      = .ok none
    ∧ compile_agent (fun _ _ => none) none
        (.ok { name := some r"a", providers := [(r"claude", false)] })
        (some [r"claude"]) [] = .ok (true, [])
    ∧ compile_entity_for_provider (fun _ _ => none)
        { name := some r"a", providers := [(r"claude", false)] } r"opencode"
        r"agents"
      = (compile_entity_render (fun _ _ => none)
          { name := some r"a", providers := [(r"claude", false)] } r"opencode"
          r"agents").map some := by
  have h1 := disabled_provider_spec (fun _ _ => none)
    { name := some r"a", providers := [(r"claude", false)] } r"claude" r"agents"
    none r"a" [] rfl rfl (by decide)
  have h2 := disabled_provider_spec (fun _ _ => none)
    { name := some r"a", providers := [(r"claude", false)] } r"opencode" r"agents"
    none r"a" [] rfl rfl (by decide)
  exact ⟨h1.1 (by decide), h1.2.1 (by decide), h2.2.2 (by decide)⟩

/-! ## Claim C8 -/

/-- Claim C8: when the template file for the requested provider and entity
kind does not exist, compilation of the entity terminates with
`sys.exit(1)` — a fatal non-zero process exit. No recovery happens and no
output is produced for that entity: the error propagates out of
`compile_agent` before any write, discarding the state. -/
theorem template_missing_fatal (env : TemplateEnv) (d : EntityData)
    (p : String) (schema : Option (List String)) (nm : String) (fs : FS)
    (henv : env r"agents" (p ++ ".md.j2") = none)
    (hen : getAssocD d.providers p true = true)
    (hv : validate_json d schema = true) (hname : d.name = some nm)
    (hnm : nm ≠ "") :
    compile_entity_for_provider env d p r"agents" = .error (.sysExit 1)
    ∧ compile_agent env schema (.ok d) (some [p]) fs = .error (.sysExit 1) := by
  have ha : compile_entity_for_provider env d p r"agents"
      = .error (.sysExit 1) := by
    simp [compile_entity_for_provider, hen, compile_entity_render,
      load_template, henv]
    rfl
  refine ⟨ha, ?_⟩
  simp [compile_agent, hv, hname, hnm, providersToCompileAgent, pyOrList,
    List.foldlM, compileAgentStep, ha]
  rfl

/-- Witness for C8: with an empty template directory, compiling a minimal
valid agent for claude exits with code 1 and produces nothing. -/
theorem template_missing_fatal_witness :
    compile_entity_for_provider (fun _ _ => none) { name := some r"a" }
      r"claude" r"agents" = .error (.sysExit 1)
    ∧ compile_agent (fun _ _ => none) none (.ok { name := some r"a" })
        (some [r"claude"]) [] = .error (.sysExit 1) :=
  template_missing_fatal (fun _ _ => none) { name := some r"a" } r"claude"
    none r"a" [] rfl rfl rfl rfl (by decide)

/-! ## Claim C7 -/

/-- Counterexample to C7 as stated: `json.loads` runs inside
`compile_agent` with no exception handler on the compile path, so a
descriptor file with malformed JSON aborts the whole run — the valid
descriptor queued after it is never compiled — although that same valid
descriptor alone compiles fine. -/
theorem malformed_json_aborts_run :
    compile_all_agents
        (fun tt _ => if tt = r"agents" then some [TPart.var r"name"] else none)
        none [.error r"Expecting value", .ok { name := some r"a" }] none []
      = .error .jsonDecodeError
    ∧ (compile_all_agents
        (fun tt _ => if tt = r"agents" then some [TPart.var r"name"] else none)
        none [.ok { name := some r"a" }] none []).isOk = true := by
  refine ⟨rfl, by decide⟩

/-- Claim C7 (amended): a per-entity validation failure — a missing
schema-required field, or a missing or empty `name` — is reported, the
entity is skipped with zero output files (the state is unchanged), and
processing continues with the next entity. A descriptor file containing
malformed JSON, however, raises an uncaught error that aborts the run. -/
theorem validation_failure_skips (env : TemplateEnv)
    (schema : Option (List String)) (d : EntityData)
    (ps : Option (List String)) (fs : FS)
    (h : validate_json d schema = false ∨ d.name = none ∨ d.name = some "") :
    compile_agent env schema (.ok d) ps fs = .ok (false, fs)
    ∧ ∀ rest, compile_all_agents env schema (.ok d :: rest) ps fs
        = compile_all_agents env schema rest ps fs := by
  have h1 : compile_agent env schema (.ok d) ps fs = .ok (false, fs) := by
    rcases h with hval | hname | hname
    · simp [compile_agent, hval]
      rfl
    · cases hv : validate_json d schema with
      | false => simp [compile_agent, hv]; rfl
      | true => simp [compile_agent, hv, hname]; rfl
    · cases hv : validate_json d schema with
      | false => simp [compile_agent, hv]; rfl
      | true => simp [compile_agent, hv, hname]; rfl
  refine ⟨h1, ?_⟩
  intro rest
  simp [compile_all_agents, List.foldlM, h1]
  rfl

/-- Witness for the amended C7: a descriptor with no `name` is skipped and
the run over the remaining (empty) list proceeds unchanged. -/
theorem validation_failure_skips_witness :
    compile_agent (fun _ _ => none) none (.ok {}) none [] = .ok (false, [])
    ∧ compile_all_agents (fun _ _ => none) none [.ok {}] none []
        = compile_all_agents (fun _ _ => none) none [] none [] := by
  have h := validation_failure_skips (fun _ _ => none) none {} none []
    (Or.inr (Or.inl rfl))
  exact ⟨h.1, h.2 []⟩

/-! ## Claim C9 -/

/-- Setting a key makes it look up to the set value. -/
theorem lookupAssoc_setAssoc_self {α : Type} (l : List (String × α))
    (k : String) (v : α) : lookupAssoc (setAssoc l k v) k = some v := by
  induction l with
  | nil => simp [setAssoc, lookupAssoc]
  | cons h t ih =>
    obtain ⟨k1, v1⟩ := h
    by_cases hk : k1 = k
    · simp [setAssoc, hk, lookupAssoc]
    · simp [setAssoc, hk, lookupAssoc, ih]

/-- Setting one key leaves every other key's lookup unchanged. -/
theorem lookupAssoc_setAssoc_ne {α : Type} (l : List (String × α))
    (k k1 : String) (v : α) (h : k1 ≠ k) :
    lookupAssoc (setAssoc l k1 v) k = lookupAssoc l k := by
  induction l with
  | nil => simp [setAssoc, lookupAssoc, h]
  | cons hd t ih =>
    obtain ⟨k2, v2⟩ := hd
    by_cases hk : k2 = k1
    · subst hk
      simp [setAssoc, lookupAssoc, h]
    · simp [setAssoc, hk, lookupAssoc, ih]

/-- The copy loop does not touch keys that are no item's name. -/
theorem add_skill_files_loop_untouched (items : List SkillItem)
    (failCopy : String → Bool) (d : SkillDest) (k : String)
    (h : ∀ it ∈ items, it.name ≠ k) :
    lookupAssoc (add_skill_files_loop items failCopy d) k = lookupAssoc d k := by
  induction items generalizing d with
  | nil => rfl
  | cons it0 rest ih =>
    have h0 : it0.name ≠ k := h it0 (by simp)
    have hrest : ∀ it ∈ rest, it.name ≠ k := fun it hm => h it (by simp [hm])
    show lookupAssoc (add_skill_files_loop rest failCopy
      (addSkillFileStep failCopy d it0)) k = _
    rw [ih _ hrest]
    unfold addSkillFileStep
    split
    · rfl
    split
    · rfl
    · exact lookupAssoc_setAssoc_ne d k it0.name _ h0

/-- Every non-JSON item whose copy succeeds ends up in the destination as a
fresh copy of the source entry, whatever happens to the other items. -/
theorem add_skill_files_loop_copies (items : List SkillItem)
    (failCopy : String → Bool) (d : SkillDest)
    (hnodup : (items.map SkillItem.name).Nodup) (it : SkillItem)
    (hm : it ∈ items)
    (hjson : (!it.isDir && pyLower (pySuffix it.name) = ".json") = false)
    (hfail : failCopy it.name = false) :
    lookupAssoc (add_skill_files_loop items failCopy d) it.name
      = some (it.isDir, it.payload) := by
  induction items generalizing d with
  | nil => cases hm
  | cons it0 rest ih =>
    rw [List.map_cons, List.nodup_cons] at hnodup
    show lookupAssoc (add_skill_files_loop rest failCopy
      (addSkillFileStep failCopy d it0)) it.name = _
    rcases List.mem_cons.mp hm with heq | hmem
    · subst heq
      have hstep : addSkillFileStep failCopy d it = setAssoc d it.name (it.isDir, it.payload) := by
        unfold addSkillFileStep
        rw [hjson]
        simp [hfail]
      rw [hstep, add_skill_files_loop_untouched]
      · exact lookupAssoc_setAssoc_self d it.name _
      · intro it2 hm2 hcontra
        exact hnodup.1 (hcontra ▸ List.mem_map_of_mem SkillItem.name hm2)
    · exact ih _ hnodup.2 hmem

/-- A JSON descriptor file is never copied: its destination entry stays
whatever it was before the loop. -/
theorem add_skill_files_loop_skips (items : List SkillItem)
    (failCopy : String → Bool) (d : SkillDest)
    (hnodup : (items.map SkillItem.name).Nodup) (it : SkillItem)
    (hm : it ∈ items)
    (hjson : (!it.isDir && pyLower (pySuffix it.name) = ".json") = true) :
    lookupAssoc (add_skill_files_loop items failCopy d) it.name
      = lookupAssoc d it.name := by
  induction items generalizing d with
  | nil => cases hm
  | cons it0 rest ih =>
    rw [List.map_cons, List.nodup_cons] at hnodup
    show lookupAssoc (add_skill_files_loop rest failCopy
      (addSkillFileStep failCopy d it0)) it.name = _
    rcases List.mem_cons.mp hm with heq | hmem
    · subst heq
      have hstep : addSkillFileStep failCopy d it = d := by
        unfold addSkillFileStep
        rw [hjson]
        rfl
      rw [hstep, add_skill_files_loop_untouched]
      intro it2 hm2 hcontra
      exact hnodup.1 (hcontra ▸ List.mem_map_of_mem SkillItem.name hm2)
    · have hne : it0.name ≠ it.name := by
        intro hcontra
        exact hnodup.1 (hcontra ▸ List.mem_map_of_mem SkillItem.name hmem)
      rw [ih _ hnodup.2 hmem]
      unfold addSkillFileStep
      split
      · rfl
      split
      · rfl
      · exact lookupAssoc_setAssoc_ne d it.name it0.name _ hne

/-- Claim C9: with a valid provider and an existing source directory, the
asset copier runs its loop over every entry of the skill's source folder:
each entry except a JSON descriptor file is copied — replacing wholesale
any existing destination entry of that name, directory or file — and the
JSON descriptors are left uncopied; and because the conclusion holds for
every failure oracle, a copy failure of any other item never prevents an
item's own successful copy (failures only skip their own item). -/
theorem add_skill_files_spec (provider : String) (items : List SkillItem)
    (failCopy : String → Bool) (dest : SkillDest)
    (hprov : provider ∈ providerKeys)
    (hnodup : (items.map SkillItem.name).Nodup) :
    add_skill_files provider true items failCopy dest
      = add_skill_files_loop items failCopy dest
    ∧ (∀ it ∈ items, (!it.isDir && pyLower (pySuffix it.name) = ".json") = false →
        failCopy it.name = false →
        lookupAssoc (add_skill_files_loop items failCopy dest) it.name
          = some (it.isDir, it.payload))
    ∧ (∀ it ∈ items, (!it.isDir && pyLower (pySuffix it.name) = ".json") = true →
        lookupAssoc (add_skill_files_loop items failCopy dest) it.name
          = lookupAssoc dest it.name) := by
  refine ⟨by simp [add_skill_files, hprov], ?_, ?_⟩
  · intro it hm hjson hfail
    exact add_skill_files_loop_copies items failCopy dest hnodup it hm hjson hfail
  · intro it hm hjson
    exact add_skill_files_loop_skips items failCopy dest hnodup it hm hjson

/-- Witness for C9: three source entries — a failing `examples.md` copy, a
`scripts` directory that replaces a stale destination directory, and the
skipped `skill.json` descriptor — at concrete values. The failing first
item does not stop the directory copy behind it. -/
theorem add_skill_files_spec_witness :
    add_skill_files r"claude" true
        [⟨r"examples.md", false, r"E"⟩, ⟨r"scripts", true, r"S"⟩,
         ⟨r"skill.json", false, r"J"⟩]
        (fun n => n = r"examples.md")
        [(r"scripts", (true, r"OLD")), (r"stale.txt", (false, r"X"))]
      = add_skill_files_loop
        [⟨r"examples.md", false, r"E"⟩, ⟨r"scripts", true, r"S"⟩,
         ⟨r"skill.json", false, r"J"⟩]
        (fun n => n = r"examples.md")
        [(r"scripts", (true, r"OLD")), (r"stale.txt", (false, r"X"))]
    ∧ lookupAssoc (add_skill_files_loop
        [⟨r"examples.md", false, r"E"⟩, ⟨r"scripts", true, r"S"⟩,
         ⟨r"skill.json", false, r"J"⟩]
        (fun n => n = r"examples.md")
        [(r"scripts", (true, r"OLD")), (r"stale.txt", (false, r"X"))])
        r"scripts" = some (true, r"S")
    ∧ lookupAssoc (add_skill_files_loop
        [⟨r"examples.md", false, r"E"⟩, ⟨r"scripts", true, r"S"⟩,
         ⟨r"skill.json", false, r"J"⟩]
        (fun n => n = r"examples.md")
        [(r"scripts", (true, r"OLD")), (r"stale.txt", (false, r"X"))])
        r"skill.json"
      = lookupAssoc [(r"scripts", (true, r"OLD")), (r"stale.txt", (false, r"X"))]
          r"skill.json" := by
  have h := add_skill_files_spec r"claude"
    [⟨r"examples.md", false, r"E"⟩, ⟨r"scripts", true, r"S"⟩,
     ⟨r"skill.json", false, r"J"⟩]
    (fun n => n = r"examples.md")
    [(r"scripts", (true, r"OLD")), (r"stale.txt", (false, r"X"))]
    (by decide) (by decide)
  exact ⟨h.1,
    h.2.1 ⟨r"scripts", true, r"S"⟩ (by simp) (by decide) (by decide),
    h.2.2 ⟨r"skill.json", false, r"J"⟩ (by simp) (by decide)⟩

/-! ## Manifest lemmas (claims C5 and C6)

`stepManifest` is the manifest update performed by all three
`write_*_output` functions. The toolkit below characterises `pyStrip` and
substring occurrence well enough to track the manifest's exact content. -/

/-- A name as the manifest behaves for: nonempty, already stripped (no
leading or trailing whitespace), and free of line breaks. -/
def goodName (n : List Char) : Prop :=
  n ≠ [] ∧ pyStrip n = n ∧ '\n' ∉ n

instance : DecidablePred goodName := fun n => by
  unfold goodName
  infer_instance

/-- `dropWhile` returns nothing or a list whose head fails the predicate. -/
theorem dropWhile_head_not (p : Char → Bool) (l : List Char) :
    l.dropWhile p = [] ∨ ∃ a t, l.dropWhile p = a :: t ∧ p a = false := by
  induction l with
  | nil => exact Or.inl rfl
  | cons c rest ih =>
    by_cases hc : p c = true
    · rw [List.dropWhile_cons, if_pos hc]
      exact ih
    · rw [List.dropWhile_cons, if_neg hc]
      exact Or.inr ⟨c, rest, rfl, by simpa using hc⟩

/-- Stripping cannot lengthen a list. -/
theorem stripLeft_length_le (l : List Char) :
    (stripLeft l).length ≤ l.length :=
  (List.dropWhile_sublist isWsChar).length_le

/-- Stripping cannot lengthen a list. -/
theorem stripRight_length_le (l : List Char) :
    (stripRight l).length ≤ l.length := by
  unfold stripRight
  rw [List.length_reverse]
  calc (l.reverse.dropWhile isWsChar).length ≤ l.reverse.length :=
        (List.dropWhile_sublist isWsChar).length_le
    _ = l.length := List.length_reverse l

/-- A list equal to its own full strip equals its right strip. -/
theorem stripRight_eq_self (l : List Char) (h : pyStrip l = l) :
    stripRight l = l := by
  have h1 : l.length ≤ (stripRight l).length := by
    conv_lhs => rw [← h]
    exact stripLeft_length_le _
  have h2 : l.reverse.dropWhile isWsChar <:+ l.reverse :=
    List.dropWhile_suffix _
  have hsr : (stripRight l).length = (l.reverse.dropWhile isWsChar).length := by
    unfold stripRight
    rw [List.length_reverse]
  have hrl : l.reverse.length = l.length := List.length_reverse l
  have hle : (l.reverse.dropWhile isWsChar).length ≤ l.reverse.length :=
    (List.dropWhile_sublist isWsChar).length_le
  have h3 : (l.reverse.dropWhile isWsChar).length = l.reverse.length := by omega
  have h4 := h2.sublist.eq_of_length h3
  unfold stripRight
  rw [h4, List.reverse_reverse]

/-- A list equal to its own full strip equals its left strip. -/
theorem stripLeft_eq_self (l : List Char) (h : pyStrip l = l) :
    stripLeft l = l := by
  have hr := stripRight_eq_self l h
  calc stripLeft l = stripLeft (stripRight l) := by rw [hr]
    _ = l := h

/-- A nonempty left-stripped list starts with a non-whitespace character. -/
theorem head_not_ws (l : List Char) (h : stripLeft l = l) (hne : l ≠ []) :
    ∃ a t, l = a :: t ∧ isWsChar a = false := by
  cases l with
  | nil => cases hne rfl
  | cons a t =>
    by_cases ha : isWsChar a = true
    · exfalso
      unfold stripLeft at h
      rw [List.dropWhile_cons, if_pos ha] at h
      have h1 : (t.dropWhile isWsChar).length ≤ t.length :=
        (List.dropWhile_sublist isWsChar).length_le
      have h2 : (t.dropWhile isWsChar).length = t.length + 1 := by
        rw [h]
        rfl
      omega
    · exact ⟨a, t, rfl, by simpa using ha⟩

/-- A nonempty right-stripped list ends with a non-whitespace character. -/
theorem last_not_ws (l : List Char) (h : stripRight l = l) (hne : l ≠ []) :
    ∃ t c, l = t ++ [c] ∧ isWsChar c = false := by
  have hrev : l.reverse.dropWhile isWsChar = l.reverse := by
    have := congrArg List.reverse h
    rwa [stripRight, List.reverse_reverse] at this
  have hne2 : l.reverse ≠ [] := by
    intro h0
    exact hne (by simpa using congrArg List.reverse h0)
  obtain ⟨a, t, h1, h2⟩ := head_not_ws l.reverse hrev hne2
  refine ⟨t.reverse, a, ?_, h2⟩
  have := congrArg List.reverse h1
  rwa [List.reverse_reverse, List.reverse_cons] at this

/-- Appending a whitespace character is undone by `stripRight`. -/
theorem stripRight_append_ws (l : List Char) (c : Char)
    (hc : isWsChar c = true) : stripRight (l ++ [c]) = stripRight l := by
  unfold stripRight
  rw [List.reverse_append, List.reverse_singleton, List.singleton_append,
    List.dropWhile_cons, if_pos hc]

/-- Appending a non-whitespace character survives `stripRight`. -/
theorem stripRight_append_not_ws (l : List Char) (c : Char)
    (hc : isWsChar c = false) : stripRight (l ++ [c]) = l ++ [c] := by
  unfold stripRight
  rw [List.reverse_append, List.reverse_singleton, List.singleton_append,
    List.dropWhile_cons, if_neg (by simp [hc]), List.reverse_cons,
    List.reverse_reverse]

/-- Prepending before a list headed by non-whitespace survives
`stripLeft`. -/
theorem stripLeft_cons_not_ws (a : Char) (t : List Char)
    (ha : isWsChar a = false) : stripLeft (a :: t) = a :: t := by
  unfold stripLeft
  rw [List.dropWhile_cons, if_neg (by simp [ha])]

/-- The strip of any list is empty or starts with non-whitespace. -/
theorem pyStrip_head (l : List Char) :
    pyStrip l = [] ∨ ∃ a t, pyStrip l = a :: t ∧ isWsChar a = false := by
  unfold pyStrip stripLeft
  exact dropWhile_head_not isWsChar (stripRight l)

/-- Every list begins with itself. -/
theorem beginsWith_append (p t : List Char) : beginsWith p (p ++ t) = true := by
  induction p with
  | nil => rfl
  | cons a ps ih => simp [beginsWith, ih]

/-- A beginning can be split off. -/
theorem beginsWith_to_append (p l : List Char) (h : beginsWith p l = true) :
    ∃ t, l = p ++ t := by
  induction p generalizing l with
  | nil => exact ⟨l, rfl⟩
  | cons a ps ih =>
    cases l with
    | nil => simp [beginsWith] at h
    | cons b ls =>
      rw [beginsWith, Bool.and_eq_true] at h
      obtain ⟨t, ht⟩ := ih ls h.2
      have hab : a = b := by simpa using h.1
      exact ⟨t, by rw [hab, ht]; rfl⟩

/-- A needle flanked by arbitrary material occurs as a substring. -/
theorem occursIn_of_parts (n pre post : List Char) :
    occursIn n (pre ++ n ++ post) = true := by
  induction pre with
  | nil =>
    rw [List.nil_append]
    cases hn : n ++ post with
    | nil =>
      have : n = [] := by
        cases n with
        | nil => rfl
        | cons a t => simp at hn
      simp [occursIn, this]
    | cons c rest =>
      rw [occursIn, ← hn, beginsWith_append]
      rfl
  | cons c pre2 ih =>
    rw [List.cons_append, List.cons_append, occursIn, ih]
    simp

/-- A substring occurrence yields a decomposition. -/
theorem occursIn_to_parts (n l : List Char) (h : occursIn n l = true) :
    ∃ pre post, l = pre ++ n ++ post := by
  induction l with
  | nil =>
    rw [occursIn] at h
    exact ⟨[], [], by simp_all⟩
  | cons c rest ih =>
    rw [occursIn, Bool.or_eq_true] at h
    rcases h with h | h
    · obtain ⟨t, ht⟩ := beginsWith_to_append n (c :: rest) h
      exact ⟨[], t, by simpa using ht⟩
    · obtain ⟨pre, post, hp⟩ := ih h
      exact ⟨c :: pre, post, by simp [hp]⟩

/-- Substring occurrence is preserved by extending the haystack on the
right. -/
theorem occursIn_append_right (n l t : List Char) (h : occursIn n l = true) :
    occursIn n (l ++ t) = true := by
  obtain ⟨pre, post, hp⟩ := occursIn_to_parts n l h
  rw [hp]
  have : pre ++ n ++ post ++ t = pre ++ n ++ (post ++ t) := by
    simp [List.append_assoc]
  rw [this]
  exact occursIn_of_parts n pre (post ++ t)

/-- The manifest body: names joined by single line breaks. -/
def joinNl : List (List Char) → List Char
  | [] => []
  | [a] => a
  | a :: b :: t => a ++ '\n' :: joinNl (b :: t)

/-- A manifest file's full content: the body plus the final newline. -/
def renderM (l : List (List Char)) : List Char := joinNl l ++ ['\n']

/-- `joinNl` starts with its first name. -/
theorem joinNl_cons_append (m : List Char) (rest : List (List Char)) :
    ∃ r, joinNl (m :: rest) = m ++ r := by
  cases rest with
  | nil => exact ⟨[], by simp [joinNl]⟩
  | cons b t => exact ⟨'\n' :: joinNl (b :: t), rfl⟩

/-- With good names, the manifest body ends in a non-whitespace
character. -/
theorem joinNl_last (l : List (List Char)) (hg : ∀ m ∈ l, goodName m)
    (hne : l ≠ []) :
    ∃ t c, joinNl l = t ++ [c] ∧ isWsChar c = false := by
  induction l with
  | nil => cases hne rfl
  | cons a rest ih =>
    cases rest with
    | nil =>
      have ha := hg a (by simp)
      obtain ⟨hne2, hstrip, _⟩ := ha
      exact last_not_ws a (stripRight_eq_self a hstrip) hne2
    | cons b t =>
      obtain ⟨t2, c, hjoin, hc⟩ := ih (fun m hm => hg m (by simp [hm]))
        (by simp)
      refine ⟨a ++ '\n' :: t2, c, ?_, hc⟩
      show a ++ '\n' :: joinNl (b :: t) = _
      rw [hjoin]
      simp

/-- With good names, the manifest body starts with a non-whitespace
character. -/
theorem joinNl_head (l : List (List Char)) (hg : ∀ m ∈ l, goodName m)
    (hne : l ≠ []) :
    ∃ a t, joinNl l = a :: t ∧ isWsChar a = false := by
  cases l with
  | nil => cases hne rfl
  | cons m rest =>
    obtain ⟨r, hr⟩ := joinNl_cons_append m rest
    have hm := hg m (by simp)
    obtain ⟨hne2, hstrip, _⟩ := hm
    obtain ⟨a, t, hm2, ha⟩ := head_not_ws m (stripLeft_eq_self m hstrip) hne2
    exact ⟨a, t ++ r, by rw [hr, hm2]; rfl, ha⟩

/-- Stripping a rendered manifest recovers exactly its body. -/
theorem pyStrip_renderM (l : List (List Char)) (hg : ∀ m ∈ l, goodName m)
    (hne : l ≠ []) : pyStrip (renderM l) = joinNl l := by
  obtain ⟨t, c, hlast, hc⟩ := joinNl_last l hg hne
  obtain ⟨a, t2, hhead, ha⟩ := joinNl_head l hg hne
  unfold renderM pyStrip
  rw [stripRight_append_ws _ _ (by rfl), hlast, stripRight_append_not_ws _ _ hc,
    ← hlast, hhead, stripLeft_cons_not_ws _ _ ha]

/-- Appending one more name to the manifest body. -/
theorem joinNl_concat (l : List (List Char)) (n : List Char) (hne : l ≠ []) :
    joinNl (l ++ [n]) = joinNl l ++ '\n' :: n := by
  induction l with
  | nil => cases hne rfl
  | cons a rest ih =>
    cases rest with
    | nil => rfl
    | cons b t =>
      show a ++ '\n' :: joinNl ((b :: t) ++ [n]) = _
      rw [ih (by simp)]
      show a ++ '\n' :: (joinNl (b :: t) ++ '\n' :: n)
        = (a ++ '\n' :: joinNl (b :: t)) ++ '\n' :: n
      simp

/-- Every listed name occurs inside the manifest body. -/
theorem mem_joinNl_decomp (m : List Char) (l : List (List Char))
    (hm : m ∈ l) : ∃ pre post, joinNl l = pre ++ m ++ post := by
  induction l with
  | nil => cases hm
  | cons a rest ih =>
    rcases List.mem_cons.mp hm with heq | hmem
    · subst heq
      obtain ⟨r, hr⟩ := joinNl_cons_append m rest
      exact ⟨[], r, by simpa using hr⟩
    · cases rest with
      | nil => cases hmem
      | cons b t =>
        obtain ⟨pre, post, hp⟩ := ih hmem
        refine ⟨a ++ '\n' :: pre, post, ?_⟩
        show a ++ '\n' :: joinNl (b :: t) = _
        rw [hp]
        simp

/-- Every listed name occurs as a substring of the manifest body. -/
theorem occursIn_mem_joinNl (m : List Char) (l : List (List Char))
    (hm : m ∈ l) : occursIn m (joinNl l) = true := by
  obtain ⟨pre, post, hp⟩ := mem_joinNl_decomp m l hm
  rw [hp]
  exact occursIn_of_parts m pre post

/-- The distinct names of a list in order of first appearance. -/
def firstOccs {α : Type} [DecidableEq α] : List α → List α
  | [] => []
  | a :: as => a :: firstOccs (as.filter (fun x => x ≠ a))
termination_by l => l.length
decreasing_by
  simp only [List.length_cons]
  exact Nat.lt_succ_of_le (as.length_filter_le _)

/-- How `firstOccs` grows when a name is appended. -/
theorem firstOccs_concat {α : Type} [DecidableEq α] (xs : List α) (n : α) :
    firstOccs (xs ++ [n])
      = if n ∈ xs then firstOccs xs else firstOccs xs ++ [n] := by
  induction xs using firstOccs.induct with
  | case1 =>
    simp [firstOccs]
  | case2 a as ih =>
    rw [List.cons_append]
    rw [firstOccs, List.filter_append]
    by_cases hna : n = a
    · subst hna
      simp only [List.filter_cons, List.filter_nil]
      rw [if_neg (by simp)]
      rw [List.append_nil]
      rw [if_pos (by simp)]
      conv_rhs => rw [firstOccs]
    · simp only [List.filter_cons, List.filter_nil]
      rw [if_pos (by simp [hna])]
      rw [ih]
      by_cases hmem : n ∈ as
      · rw [if_pos (by simp [hmem, hna]), if_pos (by simp [hmem])]
        conv_rhs => rw [firstOccs]
      · rw [if_neg (by simp [hmem, hna]), if_neg (by simp [hmem, hna])]
        conv_rhs => rw [firstOccs]
        simp

/-- The manifest obtained by folding `stepManifest` over a sequence of
written names, starting from a missing file — the manifest evolution of
`write_agent_output` / `write_command_output` / `write_skill_output` over
a whole run. -/
def runManifest (names : List (List Char)) : Option (List Char) :=
  names.foldl (fun m n => some (stepManifest m n)) none

/-- The manifest invariant: after any sequence of good names, the file is
absent (no name written) or holds exactly a rendered list of names that is
duplicate-free, ordered by first appearance, and substring-closed over
everything written so far. -/
theorem runManifest_inv (ns : List (List Char)) (h : ∀ n ∈ ns, goodName n) :
    ∃ l, (∀ m ∈ l, goodName m) ∧ l.Nodup ∧ List.Sublist l (firstOccs ns)
      ∧ (∀ m ∈ ns, occursIn m (joinNl l) = true)
      ∧ ((ns = [] ∧ runManifest ns = none)
         ∨ (l ≠ [] ∧ runManifest ns = some (renderM l))) := by
  induction ns using List.reverseRecOn with
  | nil =>
    exact ⟨[], by simp, List.nodup_nil, List.nil_sublist _, by simp,
      Or.inl ⟨rfl, rfl⟩⟩
  | append_singleton xs n ih =>
    have hxs : ∀ m ∈ xs, goodName m := fun m hm => h m (by simp [hm])
    have hn : goodName n := h n (by simp)
    obtain ⟨l, hgl, hnd, hsub, hocc, hcase⟩ := ih hxs
    have hrun : runManifest (xs ++ [n])
        = some (stepManifest (runManifest xs) n) := by
      simp [runManifest, List.foldl_append]
    rcases hcase with ⟨hxsnil, hnone⟩ | ⟨hlne, hsome⟩
    · subst hxsnil
      refine ⟨[n], by simp [hn], by simp, ?_, ?_, Or.inr ⟨by simp, ?_⟩⟩
      · show List.Sublist [n] (firstOccs ([] ++ [n]))
        rw [List.nil_append]
        rw [firstOccs]
        simp [firstOccs]
      · intro m hm
        rw [List.nil_append, List.mem_singleton] at hm
        subst hm
        have := occursIn_of_parts m [] []
        simpa using this
      · rw [hrun, hnone]
        rfl
    · have hstrip : pyStrip (renderM l) = joinNl l := pyStrip_renderM l hgl hlne
      by_cases hin : occursIn n (joinNl l) = true
      · refine ⟨l, hgl, hnd, ?_, ?_, Or.inr ⟨hlne, ?_⟩⟩
        · rw [firstOccs_concat]
          by_cases hmem : n ∈ xs
          · rwa [if_pos hmem]
          · rw [if_neg hmem]
            exact hsub.trans (List.sublist_append_left _ _)
        · intro m hm
          rcases List.mem_append.mp hm with hm2 | hm2
          · exact hocc m hm2
          · rw [List.mem_singleton] at hm2
            subst hm2
            exact hin
        · rw [hrun, hsome]
          simp [stepManifest, hstrip, hin]
      · have hnotmem_l : n ∉ l := fun hm => hin (occursIn_mem_joinNl n l hm)
        have hnotmem_xs : n ∉ xs := fun hm => hin (hocc n hm)
        refine ⟨l ++ [n], ?_, ?_, ?_, ?_, Or.inr ⟨by simp, ?_⟩⟩
        · intro m hm
          rcases List.mem_append.mp hm with hm2 | hm2
          · exact hgl m hm2
          · rw [List.mem_singleton] at hm2
            subst hm2
            exact hn
        · simp [List.nodup_append, hnd, hnotmem_l]
        · rw [firstOccs_concat, if_neg hnotmem_xs]
          exact hsub.append (List.Sublist.refl [n])
        · intro m hm
          rw [joinNl_concat l n hlne]
          rcases List.mem_append.mp hm with hm2 | hm2
          · exact occursIn_append_right m (joinNl l) ('\n' :: n) (hocc m hm2)
          · rw [List.mem_singleton] at hm2
            subst hm2
            have heq : joinNl l ++ '\n' :: m = (joinNl l ++ ['\n']) ++ m ++ [] := by
              simp
            rw [heq]
            exact occursIn_of_parts m (joinNl l ++ ['\n']) []
        · rw [hrun, hsome]
          have hin2 : occursIn n (pyStrip (renderM l)) = false := by
            rw [hstrip]
            simpa using hin
          simp only [stepManifest, hin2]
          rw [if_neg (by simp)]
          rw [hstrip]
          have hr2 : renderM (l ++ [n]) = (joinNl l ++ '\n' :: n) ++ ['\n'] := by
            rw [renderM, joinNl_concat l n hlne]
          rw [hr2]
          simp

/-- Counterexample to C5 as stated: the claim has no restriction on the
entity names, but the strip-then-substring manifest check mishandles
names with surrounding whitespace. Writing the names `"a "`, `"a"`,
`"a "`, `"a "` leaves the manifest `"a\na\na \n"`: the entity name `"a"`
(one of the written names) appears on two lines — a duplicate. -/
theorem manifest_duplicate_counterexample :
    runManifest [['a', ' '], ['a'], ['a', ' '], ['a', ' ']]
      = some (renderM [['a'], ['a'], ['a', ' ']])
    ∧ ['a'] ∈ [['a', ' '], ['a'], ['a', ' '], ['a', ' ']]
    ∧ ¬ ([['a'], ['a'], ['a', ' ']] : List (List Char)).Nodup := by
  refine ⟨by decide, by decide, by decide⟩

/-- Claim C5 (amended): for every sequence of writes (the manifest logic
of `write_agent_output`, `write_command_output` and `write_skill_output`
is the shared `stepManifest`) whose names are nonempty, free of line
breaks and of leading/trailing whitespace, the resulting `manifest.txt`
is exactly a rendered list of lines that has no duplicate name — so
repeated compilation of the same entity leaves its name at most once —
and whose order is the order of first appearance of the written names
(a sublist of `firstOccs`). Without that restriction the property fails:
the append check compares the raw name against the stripped file
content, so a name with surrounding whitespace can re-enter. -/
theorem manifest_no_duplicates (ns : List (List Char))
    (h : ∀ n ∈ ns, goodName n) :
    ∃ lines, lines.Nodup
      ∧ List.Sublist lines (firstOccs ns)
      ∧ ((runManifest ns = none ∧ ns = [])
         ∨ runManifest ns = some (renderM lines)) := by
  obtain ⟨l, _, hnd, hsub, _, hcase⟩ := runManifest_inv ns h
  rcases hcase with ⟨h1, h2⟩ | ⟨_, h2⟩
  · exact ⟨l, hnd, hsub, Or.inl ⟨h2, h1⟩⟩
  · exact ⟨l, hnd, hsub, Or.inr h2⟩

/-- Witness for C5: writing `agent-a`, `agent-b`, `agent-a` again. -/
theorem manifest_no_duplicates_witness :
    (∀ n ∈ [String.toList r"agent-a", String.toList r"agent-b",
        String.toList r"agent-a"], goodName n)
    ∧ ∃ lines, lines.Nodup
      ∧ List.Sublist lines (firstOccs [String.toList r"agent-a",
          String.toList r"agent-b", String.toList r"agent-a"])
      ∧ ((runManifest [String.toList r"agent-a", String.toList r"agent-b",
            String.toList r"agent-a"] = none
          ∧ [String.toList r"agent-a", String.toList r"agent-b",
              String.toList r"agent-a"] = ([] : List (List Char)))
         ∨ runManifest [String.toList r"agent-a", String.toList r"agent-b",
            String.toList r"agent-a"] = some (renderM lines)) :=
  ⟨by decide, manifest_no_duplicates _ (by decide)⟩

/-! ## Claim C6 -/

/-- Setting the same key twice keeps only the last write. -/
theorem setAssoc_setAssoc {α : Type} (l : List (String × α)) (k : String)
    (v w : α) : setAssoc (setAssoc l k v) k w = setAssoc l k w := by
  induction l with
  | nil => simp [setAssoc]
  | cons hd t ih =>
    obtain ⟨k1, v1⟩ := hd
    by_cases hk : k1 = k
    · simp [setAssoc, hk]
    · simp [setAssoc, hk, ih]

/-- A good name followed by the final newline strips back to the name. -/
theorem pyStrip_name_nl (n : List Char) (hg : goodName n) :
    pyStrip (n ++ ['\n']) = n := by
  obtain ⟨hne, hstrip, _⟩ := hg
  rw [pyStrip, stripRight_append_ws _ _ (by decide), stripRight_eq_self n hstrip]
  exact stripLeft_eq_self n hstrip

/-- Every list occurs in itself. -/
theorem occursIn_refl (n : List Char) : occursIn n n = true := by
  have := occursIn_of_parts n [] []
  simpa using this

/-- Writing the same name into a manifest twice is the same as writing it
once. -/
theorem stepManifest_idem (m : Option (List Char)) (n : List Char)
    (hg : goodName n) :
    stepManifest (some (stepManifest m n)) n = stepManifest m n := by
  obtain ⟨hne, hstrip, hnl⟩ := hg
  cases m with
  | none =>
    show stepManifest (some (n ++ ['\n'])) n = n ++ ['\n']
    simp [stepManifest, pyStrip_name_nl n ⟨hne, hstrip, hnl⟩, occursIn_refl]
  | some c =>
    by_cases hin : occursIn n (pyStrip c) = true
    · simp [stepManifest, hin]
    · have hb : stepManifest (some c) n = pyStrip c ++ '\n' :: (n ++ ['\n']) := by
        simp [stepManifest, hin]
      rw [hb]
      obtain ⟨t, cch, hn_last, hlast⟩ :=
        last_not_ws n (stripRight_eq_self n hstrip) hne
      have hmid : pyStrip c ++ '\n' :: n = (pyStrip c ++ '\n' :: t) ++ [cch] := by
        rw [hn_last]
        simp
      have hsr : stripRight (pyStrip c ++ '\n' :: (n ++ ['\n']))
          = pyStrip c ++ '\n' :: n := by
        have hshape : pyStrip c ++ '\n' :: (n ++ ['\n'])
            = (pyStrip c ++ '\n' :: n) ++ ['\n'] := by simp
        rw [hshape, stripRight_append_ws _ _ (by decide), hmid,
          stripRight_append_not_ws _ _ hlast, ← hmid]
      rcases pyStrip_head c with hc0 | ⟨a, t2, hc1, ha⟩
      · have hps : pyStrip (pyStrip c ++ '\n' :: (n ++ ['\n'])) = n := by
          rw [pyStrip, hsr, hc0, List.nil_append]
          show stripLeft ('\n' :: n) = n
          rw [stripLeft, List.dropWhile_cons, if_pos (by rfl)]
          exact stripLeft_eq_self n hstrip
        simp [stepManifest, hps, occursIn_refl]
      · have hps : pyStrip (pyStrip c ++ '\n' :: (n ++ ['\n']))
            = pyStrip c ++ '\n' :: n := by
          rw [pyStrip, hsr, hc1]
          show stripLeft (a :: (t2 ++ '\n' :: n)) = _
          rw [stripLeft_cons_not_ws _ _ ha]
          simp
        have hocc : occursIn n (pyStrip c ++ '\n' :: n) = true := by
          have hshape2 : pyStrip c ++ '\n' :: n
              = (pyStrip c ++ ['\n']) ++ n ++ [] := by simp
          rw [hshape2]
          exact occursIn_of_parts n (pyStrip c ++ ['\n']) []
        simp [stepManifest, hps, hocc]

/-- Repeating the same `write_agent_output` call leaves the file system
exactly as after the first call: the rendered file is overwritten with the
same content and the manifest update is a no-op. -/
theorem write_agent_output_idem (nm content p : String) (fs fs1 : FS)
    (hg : goodName nm.toList)
    (h : write_agent_output nm content p fs = .ok fs1) :
    write_agent_output nm content p fs1 = .ok fs1 := by
  unfold write_agent_output at h ⊢
  by_cases hp : p ∈ providerKeys
  · rw [if_pos (by simpa using hp)] at h ⊢
    have hfs1 : fs1 = setAssoc fs p
        (writeNamedOutput (getAssocD fs p {}) nm content) := by
      cases h
      rfl
    set d1 := writeNamedOutput (getAssocD fs p {}) nm content with hd1
    have hget : getAssocD fs1 p {} = d1 := by
      rw [hfs1]
      unfold getAssocD
      rw [lookupAssoc_setAssoc_self]
    have hw2 : writeNamedOutput d1 nm content = d1 := by
      unfold writeNamedOutput at hd1 ⊢
      rw [hd1]
      simp only [setAssoc_setAssoc]
      congr 1
      exact congrArg some (stepManifest_idem _ _ hg)
    rw [hget, hw2, hfs1, setAssoc_setAssoc]
  · rw [if_neg (by simpa using hp)] at h
    cases h

/-- Reduction of `Except` bind on a success value. -/
theorem except_bind_ok {ε α β : Type} (a : α) (f : α → Except ε β) :
    (Except.ok a >>= f) = f a := rfl

/-- Reduction of `Except` bind on an error value. -/
theorem except_bind_error {ε α β : Type} (e : ε) (f : α → Except ε β) :
    ((Except.error e : Except ε α) >>= f) = Except.error e := rfl

/-- `pure` for `Except` is `ok`. -/
theorem except_pure {ε α : Type} (a : α) :
    (pure a : Except ε α) = Except.ok a := rfl

/-- Counterexample to C6 as stated: for an entity named `"a "` (trailing
space — truthy, passes validation) the first run writes manifest `"a \n"`;
the second run strips the file to `"a"`, fails the substring check for
`"a "`, and rewrites the manifest as `"a\na \n"`. The state after the
second run differs from the state after the first, so compiling the same
descriptor twice is not unconditionally idempotent. -/
theorem compile_agent_not_idempotent_counterexample :
    compile_agent
        (fun tt _ => if tt = r"agents" then some [TPart.var r"name"] else none)
        none (.ok { name := some "a " }) (some [r"claude"]) []
      = .ok (true, [(r"claude",
          { files := [("a ", "a ")], manifest := some ['a', ' ', '\n'] })])
    ∧ compile_agent
        (fun tt _ => if tt = r"agents" then some [TPart.var r"name"] else none)
        none (.ok { name := some "a " }) (some [r"claude"])
        [(r"claude", { files := [("a ", "a ")], manifest := some ['a', ' ', '\n'] })]
      = .ok (true, [(r"claude",
          { files := [("a ", "a ")],
            manifest := some ['a', '\n', 'a', ' ', '\n'] })])
    ∧ ([(r"claude",
          { files := [("a ", "a ")], manifest := some ['a', ' ', '\n'] })] : FS)
        ≠ [(r"claude",
          { files := [("a ", "a ")],
            manifest := some ['a', '\n', 'a', ' ', '\n'] })] := by
  refine ⟨by decide, by decide, by decide⟩

/-- Claim C6 (amended): compiling the same entity descriptor twice for the
same provider is idempotent provided the entity's name is nonempty and has
no line breaks and no leading or trailing whitespace. Rendering is a pure
function of the descriptor, so the second run re-renders the same content;
the second write overwrites the output file with identical content and
leaves the manifest untouched: the whole state after the second run equals
the state after the first. Without the name restriction the manifest grows
on re-compilation (strip-then-substring check). -/
theorem compile_agent_idempotent (env : TemplateEnv)
    (schema : Option (List String)) (d : EntityData) (p : String)
    (fs st1 : FS) (b : Bool)
    (hg : ∀ nm, d.name = some nm → goodName nm.toList)
    (h1 : compile_agent env schema (.ok d) (some [p]) fs = .ok (b, st1)) :
    compile_agent env schema (.ok d) (some [p]) st1 = .ok (b, st1) := by
  cases hv : validate_json d schema with
  | false =>
    have hA : ∀ st : FS, compile_agent env schema (.ok d) (some [p]) st
        = .ok (false, st) := by
      intro st
      simp [compile_agent, hv]
      rfl
    rw [hA fs] at h1
    cases h1
    exact hA fs
  | true =>
    cases hname : d.name with
    | none =>
      have hA : ∀ st : FS, compile_agent env schema (.ok d) (some [p]) st
          = .ok (false, st) := by
        intro st
        simp [compile_agent, hv, hname]
        rfl
      rw [hA fs] at h1
      cases h1
      exact hA fs
    | some nm =>
      by_cases hnm : nm = ""
      · subst hnm
        have hA : ∀ st : FS, compile_agent env schema (.ok d) (some [p]) st
            = .ok (false, st) := by
          intro st
          simp [compile_agent, hv, hname]
          rfl
        rw [hA fs] at h1
        cases h1
        exact hA fs
      · have hgood := hg nm hname
        have hps : providersToCompileAgent (some [p]) = [p] := by
          simp [providersToCompileAgent, pyOrList]
        rcases hce : compile_entity_for_provider env d p r"agents" with e | oc
        · have hA : ∀ st : FS, compile_agent env schema (.ok d) (some [p]) st
              = .error e := by
            intro st
            simp [compile_agent, hv, hname, hnm, hps, List.foldlM,
              compileAgentStep, hce]
            rfl
          rw [hA fs] at h1
          cases h1
        · cases oc with
          | none =>
            have hA : ∀ st : FS, compile_agent env schema (.ok d) (some [p]) st
                = .ok (true, st) := by
              intro st
              simp [compile_agent, hv, hname, hnm, hps, List.foldlM,
                compileAgentStep, hce]
              rfl
            rw [hA fs] at h1
            cases h1
            exact hA fs
          | some c =>
            by_cases hc : c = ""
            · subst hc
              have hA : ∀ st : FS, compile_agent env schema (.ok d) (some [p]) st
                  = .ok (true, st) := by
                intro st
                simp [compile_agent, hv, hname, hnm, hps, List.foldlM,
                  compileAgentStep, hce]
                rfl
              rw [hA fs] at h1
              cases h1
              exact hA fs
            · have hA : ∀ (st : FS) (w : Except PyErr FS),
                  write_agent_output nm c p st = w →
                  compile_agent env schema (.ok d) (some [p]) st
                    = w.map (fun fs2 => (true, fs2)) := by
                intro st w hw
                simp [compile_agent, hv, hname, hnm, hps, List.foldlM,
                  compileAgentStep, hce, hc, hw]
                rw [except_bind_ok]
                show ((fun a => ((true : Bool), a.2)) <$>
                    (if c = "" then (pure ((0 : Nat), st) : Except PyErr (Nat × FS))
                     else Prod.mk 1 <$> write_agent_output nm c p st)) = _
                rw [if_neg hc, hw]
                cases w with
                | error e2 => rfl
                | ok fs2 => rfl
              rcases hw : write_agent_output nm c p fs with e2 | fs2
              · rw [hA fs (.error e2) hw] at h1
                have h2 : (Except.error e2 : Except PyErr (Bool × FS))
                    = .ok (b, st1) := h1
                cases h2
              · rw [hA fs (.ok fs2) hw] at h1
                have h2 : (Except.ok ((true : Bool), fs2) : Except PyErr (Bool × FS))
                    = .ok (b, st1) := h1
                have h3 : b = true ∧ st1 = fs2 := by
                  cases h2
                  exact ⟨rfl, rfl⟩
                obtain ⟨hb1, hst1⟩ := h3
                rw [hb1, hst1]
                exact hA fs2 (.ok fs2)
                  (write_agent_output_idem nm c p fs fs2 hgood hw)

/-- Witness for C6: one concrete agent compiled twice for claude; the
second run reproduces the state of the first exactly. -/
theorem compile_agent_idempotent_witness :
    compile_agent
        (fun tt _ => if tt = r"agents" then some [TPart.var r"name"] else none)
        none (.ok { name := some r"a" }) (some [r"claude"]) []
      = .ok (true, [(r"claude",
          { files := [(r"a", r"a")], manifest := some ['a', '\n'] })])
    ∧ compile_agent
        (fun tt _ => if tt = r"agents" then some [TPart.var r"name"] else none)
        none (.ok { name := some r"a" }) (some [r"claude"])
        [(r"claude", { files := [(r"a", r"a")], manifest := some ['a', '\n'] })]
      = .ok (true, [(r"claude",
          { files := [(r"a", r"a")], manifest := some ['a', '\n'] })]) := by
  have h1 : compile_agent
      (fun tt _ => if tt = r"agents" then some [TPart.var r"name"] else none)
      none (.ok { name := some r"a" }) (some [r"claude"]) []
      = .ok (true, [(r"claude",
          { files := [(r"a", r"a")], manifest := some ['a', '\n'] })]) := by
    decide
  refine ⟨h1, ?_⟩
  exact compile_agent_idempotent _ none { name := some r"a" } r"claude" _ _ _
    (fun nm h => by cases h; decide) h1
